import Mathlib

/-! # Speed Insights activation guard

Shallow embedding of `src/danmu_api/utils/speed-insights.js`.

The module owns one mutable flag, `speedInsightsInitialized`, and exports the
asynchronous `initSpeedInsights` and the reader `isSpeedInsightsInitialized`.
Everything the function touches outside the flag (the `typeof window` test, the
dynamic import, the imported `injectSpeedInsights`, the console) is recorded in
a trace held next to the flag, so that statements about "what was called" and
"what was logged" are statements about a list of events.
-/

namespace SpeedInsights

/-! ## JavaScript values seen by the handlers -/

/-- Value bound by a `catch (error)` clause, classified by what evaluating
`error.message` does: it yields a value (a string, or `undefined` written
`none`), or the caught value is `null`/`undefined` and the property read raises
a `TypeError`, or `message` is an accessor whose getter raises `inner`. -/
inductive JsThrown where
  | value (message : Option String)
  | nullish
  | messageRaises (inner : JsThrown)
  deriving DecidableEq

/-- Message text of the `TypeError` raised by a property read on `null` or
`undefined` (the wording is engine specific). -/
def typeErrorNullishMessage : String :=
  "Cannot read properties of null (reading message)"

/-- Message text of the `TypeError` raised by calling a binding that is not a
function (the wording is engine specific). -/
def typeErrorNotCallableMessage : String :=
  "injectSpeedInsights is not a function"

/-- Evaluation of the expression `error.message`. -/
def readMessage : JsThrown → Except JsThrown (Option String)
  | .value message => .ok message
  | .nullish => .error (.value (some typeErrorNullishMessage))
  | .messageRaises inner => .error inner

/-- Value returned by `injectSpeedInsights()`; line 37 discards it. -/
inductive JsReturn where
  | undefined
  | errorValue (message : String)
  deriving DecidableEq

/-- How the call `injectSpeedInsights()` on line 37 completes. -/
inductive InjectOutcome where
  | returns (value : JsReturn)
  | throws (thrown : JsThrown)
  deriving DecidableEq

/-- How `await import(...)` on line 36 settles. When it resolves, `entry` is
the behaviour of the export `injectSpeedInsights`, or `none` when the module
has no callable export of that name. -/
inductive ImportOutcome where
  | rejects (reason : JsThrown)
  | resolves (entry : Option InjectOutcome)
  deriving DecidableEq

/-- Environment of one call: the truth value of
`typeof window !== "undefined"` and the way the dynamic import settles. -/
structure Env where
  windowDefined : Bool
  provider : ImportOutcome
  deriving DecidableEq

/-! ## Diagnostics and trace -/

/-- Console method used for a diagnostic. -/
inductive Level where
  | log
  | warn
  deriving DecidableEq

/-- One console call: the method, the literal first argument, and the second
argument when there is one (`some none` is a second argument `undefined`). -/
structure Diagnostic where
  level : Level
  text : String
  detail : Option (Option String)
  deriving DecidableEq

/-- Line 30. -/
def skipBrowserLine : Diagnostic :=
  ⟨.log, "[Speed Insights] Skipping initialization - running in browser environment", none⟩

/-- Line 39. -/
def successLine : Diagnostic :=
  ⟨.log, "[Speed Insights] Successfully initialized Vercel Speed Insights", none⟩

/-- Line 43. -/
def notAvailableLine (message : Option String) : Diagnostic :=
  ⟨.log, "[Speed Insights] Info: Speed Insights not available:", some message⟩

/-- Line 46. -/
def warningLine (message : Option String) : Diagnostic :=
  ⟨.warn, "[Speed Insights] Warning during initialization:", some message⟩

/-- Externally visible action of `initSpeedInsights`. -/
inductive Event where
  | probe
  | importAttempt
  | invoke (outcome : InjectOutcome)
  | diagnostic (line : Diagnostic)
  deriving DecidableEq

/-- Module state: the flag of line 12 and the record of actions so far. -/
structure State where
  speedInsightsInitialized : Bool
  trace : List Event
  deriving DecidableEq

/-- State right after the module is loaded (line 12). -/
def freshState : State := ⟨false, []⟩

/-- Append one action to the record. -/
def State.emit (s : State) (e : Event) : State :=
  { s with trace := s.trace ++ [e] }

/-- How the promise returned by `initSpeedInsights` settles. -/
inductive Completion where
  | resolved
  | rejected (reason : JsThrown)
  deriving DecidableEq

/-! ## The code -/

/-- Result of running a call up to its first suspension point. -/
inductive Progress where
  | returned (s : State)
  | suspended (s : State)
  deriving DecidableEq

/-- Lines 20-36, up to the `await`: the guard, the `typeof window` test, the
browser return, and the start of the dynamic import. -/
def initSpeedInsightsSync (windowDefined : Bool) (s : State) : Progress :=
  if s.speedInsightsInitialized then
    .returned s
  else
    let s1 := s.emit .probe
    if windowDefined then
      .returned (s1.emit (.diagnostic skipBrowserLine))
    else
      .suspended (s1.emit .importAttempt)

/-- Lines 36-39: the rest of the inner `try` block once the import settled. -/
def innerTry (o : ImportOutcome) (s : State) : State × Except JsThrown Unit :=
  match o with
  | .rejects reason => (s, .error reason)
  | .resolves none => (s, .error (.value (some typeErrorNotCallableMessage)))
  | .resolves (some (.throws thrown)) => (s.emit (.invoke (.throws thrown)), .error thrown)
  | .resolves (some (.returns value)) =>
    let s1 := s.emit (.invoke (.returns value))
    let s2 : State := { s1 with speedInsightsInitialized := true }
    (s2.emit (.diagnostic successLine), .ok ())

/-- Lines 40-44: the inner handler. The argument `error.message` is evaluated
before `console.log` is called. -/
def innerCatch (err : JsThrown) (s : State) : State × Except JsThrown Unit :=
  match readMessage err with
  | .ok message => (s.emit (.diagnostic (notAvailableLine message)), .ok ())
  | .error raised => (s, .error raised)

/-- Lines 45-47: the outer handler. What it raises leaves the function. -/
def outerCatch (err : JsThrown) (s : State) : State × Completion :=
  match readMessage err with
  | .ok message => (s.emit (.diagnostic (warningLine message)), .resolved)
  | .error raised => (s, .rejected raised)

/-- Lines 36-48: the call from the point where the import has settled. -/
def initSpeedInsightsResume (o : ImportOutcome) (s : State) : State × Completion :=
  match innerTry o s with
  | (s1, .ok ()) => (s1, .resolved)
  | (s1, .error thrown) =>
    match innerCatch thrown s1 with
    | (s2, .ok ()) => (s2, .resolved)
    | (s2, .error raised) => outerCatch raised s2

/-- Lines 19-48: one awaited call of `initSpeedInsights`. -/
def initSpeedInsights (env : Env) (s : State) : State × Completion :=
  match initSpeedInsightsSync env.windowDefined s with
  | .returned s1 => (s1, .resolved)
  | .suspended s1 => initSpeedInsightsResume env.provider s1

/-- Lines 54-56. -/
def isSpeedInsightsInitialized (s : State) : Bool :=
  s.speedInsightsInitialized

/-! ## Sequences of calls -/

/-- Calls made one after the other, each awaited before the next. -/
def runCalls : List Env → State → State
  | [], s => s
  | env :: rest, s => runCalls rest (initSpeedInsights env s).1

/-- Number of calls of `injectSpeedInsights` in a record. -/
def invocations : List Event → Nat
  | [] => 0
  | .invoke _ :: rest => invocations rest + 1
  | _ :: rest => invocations rest

/-- Number of calls of `injectSpeedInsights` that returned normally. -/
def successfulInvocations : List Event → Nat
  | [] => 0
  | .invoke (.returns _) :: rest => successfulInvocations rest + 1
  | _ :: rest => successfulInvocations rest

/-- The console calls of a record, in order. -/
def diagnostics : List Event → List Diagnostic
  | [] => []
  | .diagnostic line :: rest => line :: diagnostics rest
  | _ :: rest => diagnostics rest

/-! ## Callers -/

/-- Operation of a caller that awaits every call before doing anything else. -/
inductive Op where
  | call (env : Env)
  | query
  deriving DecidableEq

/-- Effect of one operation on the module state; `query` is the read of
lines 54-56 and writes nothing. -/
def applyOp (s : State) : Op → State
  | .call env => (initSpeedInsights env s).1
  | .query => s

/-- Module state together with the number of calls suspended at the `await`
of line 36. -/
structure Sched where
  state : State
  pending : Nat
  deriving DecidableEq

/-- Atomic step of the single-threaded scheduler when calls are not awaited:
a new call runs up to its suspension point, the import of a suspended call
settles and that call runs to its end, or the flag is read. -/
inductive Step where
  | start (windowDefined : Bool)
  | settle (o : ImportOutcome)
  | query
  deriving DecidableEq

/-- Effect of one atomic step. -/
def applyStep (c : Sched) : Step → Sched
  | .start windowDefined =>
    match initSpeedInsightsSync windowDefined c.state with
    | .returned s => ⟨s, c.pending⟩
    | .suspended s => ⟨s, c.pending + 1⟩
  | .settle o =>
    if c.pending = 0 then c
    else ⟨(initSpeedInsightsResume o c.state).1, c.pending - 1⟩
  | .query => c

/-- Values of the flag before the first step and after each step. -/
def flagTrace {σ α : Type} (flag : σ → Bool) (step : σ → α → σ) : σ → List α → List Bool
  | s, [] => [flag s]
  | s, a :: rest => flag s :: flagTrace flag step (step s a) rest

/-- Number of adjacent positions where a list goes from `false` to `true`. -/
def risingEdges : List Bool → Nat
  | a :: b :: rest => (if !a && b then 1 else 0) + risingEdges (b :: rest)
  | _ => 0

/-- Number of adjacent positions where a list goes from `true` to `false`. -/
def fallingEdges : List Bool → Nat
  | a :: b :: rest => (if a && !b then 1 else 0) + fallingEdges (b :: rest)
  | _ => 0

/-- Whether the call `injectSpeedInsights()` was reached and returned. -/
def entryReturned : ImportOutcome → Bool
  | .resolves (some (.returns _)) => true
  | _ => false

/-- Value bound by the inner `catch (error)` clause, if the inner `try` block
raises. -/
def caughtValue : ImportOutcome → Option JsThrown
  | .rejects reason => some reason
  | .resolves none => some (.value (some typeErrorNotCallableMessage))
  | .resolves (some (.throws thrown)) => some thrown
  | .resolves (some (.returns _)) => none

/-- Whether both handlers raise when the inner one is entered with `err`:
reading `err.message` raises, and reading `message` of what that raised
raises again. -/
def bothHandlersRaise (err : JsThrown) : Bool :=
  match readMessage err with
  | .ok _ => false
  | .error raised =>
    match readMessage raised with
    | .ok _ => false
    | .error _ => true

/-! ## Auxiliary facts -/

theorem invocations_append (t u : List Event) :
    invocations (t ++ u) = invocations t + invocations u := by
  induction t with
  | nil => simp [invocations]
  | cons e rest ih =>
    cases e <;> simp [invocations, ih, Nat.add_right_comm]

theorem successfulInvocations_append (t u : List Event) :
    successfulInvocations (t ++ u) = successfulInvocations t + successfulInvocations u := by
  induction t with
  | nil => simp [successfulInvocations]
  | cons e rest ih =>
    cases e with
    | invoke outcome =>
      cases outcome <;> simp [successfulInvocations, ih, Nat.add_right_comm]
    | _ => simp [successfulInvocations, ih]

theorem diagnostics_append (t u : List Event) :
    diagnostics (t ++ u) = diagnostics t ++ diagnostics u := by
  induction t with
  | nil => simp [diagnostics]
  | cons e rest ih => cases e <;> simp [diagnostics, ih]

/-- The flag after the second half of a call. -/
theorem initSpeedInsightsResume_flag (o : ImportOutcome) (s : State) :
    (initSpeedInsightsResume o s).1.speedInsightsInitialized
      = (s.speedInsightsInitialized || entryReturned o) := by
  obtain ⟨flag, t⟩ := s
  rcases o with (m | _ | (m | _ | i)) | (_ | (v | (m | _ | (m | _ | i)))) <;>
    simp [initSpeedInsightsResume, innerTry, innerCatch, outerCatch, readMessage,
      State.emit, entryReturned]

/-- The flag after one awaited call. -/
theorem initSpeedInsights_flag (env : Env) (s : State) :
    (initSpeedInsights env s).1.speedInsightsInitialized
      = (s.speedInsightsInitialized || (!env.windowDefined && entryReturned env.provider)) := by
  obtain ⟨flag, t⟩ := s
  obtain ⟨w, o⟩ := env
  cases flag <;> cases w <;>
    simp [initSpeedInsights, initSpeedInsightsSync, initSpeedInsightsResume_flag, State.emit]

/-- A call made with the flag true changes nothing. -/
theorem initSpeedInsights_of_flag (env : Env) (t : List Event) :
    initSpeedInsights env ⟨true, t⟩ = (⟨true, t⟩, .resolved) := by
  simp [initSpeedInsights, initSpeedInsightsSync]

/-- Successful invocations added to the record by one awaited call. -/
theorem initSpeedInsights_successful (env : Env) (s : State) :
    successfulInvocations (initSpeedInsights env s).1.trace
      = successfulInvocations s.trace
        + (if !s.speedInsightsInitialized && (!env.windowDefined && entryReturned env.provider)
            then 1 else 0) := by
  obtain ⟨flag, t⟩ := s
  obtain ⟨w, o⟩ := env
  cases flag
  · cases w
    · rcases o with (m | _ | (m | _ | i)) | (_ | (v | (m | _ | (m | _ | i)))) <;>
        simp [initSpeedInsights, initSpeedInsightsSync, initSpeedInsightsResume, innerTry,
          innerCatch, outerCatch, readMessage, State.emit, entryReturned,
          successfulInvocations_append, successfulInvocations]
    · simp [initSpeedInsights, initSpeedInsightsSync, State.emit,
        successfulInvocations_append, successfulInvocations]
  · simp [initSpeedInsights, initSpeedInsightsSync]

/-- Along awaited calls the record holds one successful invocation when the
flag is true and none when it is false. -/
theorem runCalls_successful (envs : List Env) (s : State)
    (h : successfulInvocations s.trace = if s.speedInsightsInitialized then 1 else 0) :
    successfulInvocations (runCalls envs s).trace
      = if (runCalls envs s).speedInsightsInitialized then 1 else 0 := by
  induction envs generalizing s with
  | nil => simpa [runCalls] using h
  | cons env rest ih =>
    apply ih
    rw [initSpeedInsights_successful, initSpeedInsights_flag, h]
    cases s.speedInsightsInitialized <;> cases env.windowDefined <;>
      cases entryReturned env.provider <;> simp

/-- Awaited calls made with the flag true change nothing. -/
theorem runCalls_of_flag (envs : List Env) (t : List Event) :
    runCalls envs ⟨true, t⟩ = ⟨true, t⟩ := by
  induction envs with
  | nil => rfl
  | cons env rest ih => simp [runCalls, initSpeedInsights_of_flag, ih]

/-- The first half of a call leaves the flag as it was. -/
theorem initSpeedInsightsSync_flag (w : Bool) (s : State) :
    (match initSpeedInsightsSync w s with
      | .returned s1 => s1.speedInsightsInitialized
      | .suspended s1 => s1.speedInsightsInitialized) = s.speedInsightsInitialized := by
  obtain ⟨flag, t⟩ := s
  cases flag <;> cases w <;> simp [initSpeedInsightsSync, State.emit]

theorem applyOp_flag (s : State) (op : Op) (h : isSpeedInsightsInitialized s = true) :
    isSpeedInsightsInitialized (applyOp s op) = true := by
  cases op with
  | call env =>
    simp only [isSpeedInsightsInitialized] at h
    simp [applyOp, isSpeedInsightsInitialized, initSpeedInsights_flag, h]
  | query => simpa [applyOp] using h

theorem applyStep_flag (c : Sched) (step : Step)
    (h : isSpeedInsightsInitialized c.state = true) :
    isSpeedInsightsInitialized (applyStep c step).state = true := by
  simp only [isSpeedInsightsInitialized] at h
  cases step with
  | start w =>
    have hs := initSpeedInsightsSync_flag w c.state
    simp only [applyStep, isSpeedInsightsInitialized]
    cases hp : initSpeedInsightsSync w c.state <;> simp_all
  | settle o =>
    simp only [applyStep, isSpeedInsightsInitialized]
    split
    · exact h
    · simp [initSpeedInsightsResume_flag, h]
  | query => simpa [applyStep, isSpeedInsightsInitialized] using h

theorem flagTrace_eq_cons {σ α : Type} (flag : σ → Bool) (step : σ → α → σ)
    (s : σ) (l : List α) : ∃ tl, flagTrace flag step s l = flag s :: tl := by
  cases l <;> exact ⟨_, rfl⟩

/-- When no step takes the flag from true to false, a flag history has no
falling edge and at most one rising edge. -/
theorem flagTrace_edges {σ α : Type} (flag : σ → Bool) (step : σ → α → σ)
    (hmono : ∀ s a, flag s = true → flag (step s a) = true) (l : List α) (s : σ) :
    fallingEdges (flagTrace flag step s l) = 0 ∧
    risingEdges (flagTrace flag step s l) ≤ 1 ∧
    (flag s = true → risingEdges (flagTrace flag step s l) = 0) := by
  induction l generalizing s with
  | nil => simp [flagTrace, fallingEdges, risingEdges]
  | cons a rest ih =>
    obtain ⟨tl, htl⟩ := flagTrace_eq_cons flag step (step s a) rest
    have h := ih (step s a)
    have hm := hmono s a
    rw [htl] at h
    simp only [flagTrace, htl, fallingEdges, risingEdges]
    cases hs : flag s <;> cases hs2 : flag (step s a) <;> simp_all

/-- The promise of a call is rejected exactly when the flag was false, the
context is the server, the inner `try` block raised, and both handlers raised
while reading `message`. -/
theorem initSpeedInsights_resolved_iff (env : Env) (s : State) :
    (initSpeedInsights env s).2 = .resolved ↔
      ¬ (s.speedInsightsInitialized = false ∧ env.windowDefined = false ∧
          ∃ err, caughtValue env.provider = some err ∧ bothHandlersRaise err = true) := by
  obtain ⟨flag, t⟩ := s
  obtain ⟨w, o⟩ := env
  cases flag
  · cases w
    · rcases o with (m | _ | (m | _ | i)) | (_ | (v | (m | _ | (m | _ | i)))) <;>
        simp [initSpeedInsights, initSpeedInsightsSync, initSpeedInsightsResume, innerTry,
          innerCatch, outerCatch, readMessage, State.emit, caughtValue, bothHandlersRaise]
    · simp [initSpeedInsights, initSpeedInsightsSync, State.emit]
  · simp [initSpeedInsights, initSpeedInsightsSync]

/-! ## Single calls -/

/-- C9: when the flag is already true the call returns at once, resolved,
before any suspension point, and the whole state is unchanged: the flag is
still true and the record gained no probe, no import, no invocation and no
diagnostic. This holds for every environment and every earlier record. -/
theorem guarded_early_return (env : Env) (t : List Event) :
    initSpeedInsightsSync env.windowDefined ⟨true, t⟩ = .returned ⟨true, t⟩ ∧
    initSpeedInsights env ⟨true, t⟩ = (⟨true, t⟩, .resolved) := by
  constructor <;> simp [initSpeedInsights, initSpeedInsightsSync]

/-- C5: with the flag false and `window` defined, whatever the import or the
provider would do, the call resolves, the flag is still false, and the call
adds to the record exactly the probe and the browser diagnostic: no import is
started and `injectSpeedInsights` is not invoked. -/
theorem browser_short_circuit (o : ImportOutcome) (t : List Event) :
    initSpeedInsights ⟨true, o⟩ ⟨false, t⟩
        = (⟨false, t ++ [.probe, .diagnostic skipBrowserLine]⟩, .resolved) ∧
    isSpeedInsightsInitialized (initSpeedInsights ⟨true, o⟩ ⟨false, t⟩).1 = false ∧
    Event.importAttempt ∉ [Event.probe, .diagnostic skipBrowserLine] ∧
    invocations [Event.probe, .diagnostic skipBrowserLine] = 0 := by
  refine ⟨?_, ?_, by decide, rfl⟩ <;>
    simp [initSpeedInsights, initSpeedInsightsSync, State.emit, isSpeedInsightsInitialized]

/-- C3: with the flag false, on the server, when the import resolves and
`injectSpeedInsights` returns (whatever it returns), the call resolves, the
reader gives false before and true after, and the console calls of the call
are exactly one: `console.log` with the single argument
"[Speed Insights] Successfully initialized Vercel Speed Insights". That line
is at level `log`, not `warn`, and it is none of the browser line, the
"not available" line or the warning line, whatever message those carry. -/
theorem success_path (value : JsReturn) (t : List Event) (message : Option String) :
    initSpeedInsights ⟨false, .resolves (some (.returns value))⟩ ⟨false, t⟩
        = (⟨true, t ++ [.probe, .importAttempt, .invoke (.returns value),
              .diagnostic successLine]⟩, .resolved) ∧
    isSpeedInsightsInitialized ⟨false, t⟩ = false ∧
    isSpeedInsightsInitialized
        (initSpeedInsights ⟨false, .resolves (some (.returns value))⟩ ⟨false, t⟩).1 = true ∧
    diagnostics [.probe, .importAttempt, .invoke (.returns value), .diagnostic successLine]
        = [successLine] ∧
    diagnostics
        (initSpeedInsights ⟨false, .resolves (some (.returns value))⟩ ⟨false, t⟩).1.trace
      = diagnostics t ++
          [⟨.log, "[Speed Insights] Successfully initialized Vercel Speed Insights", none⟩] ∧
    successLine.level = .log ∧
    successLine.level ≠ .warn ∧
    successLine.text = "[Speed Insights] Successfully initialized Vercel Speed Insights" ∧
    successLine.detail = none ∧
    successLine ≠ notAvailableLine message ∧
    successLine ≠ warningLine message ∧
    successLine ≠ skipBrowserLine := by
  refine ⟨?_, rfl, ?_, rfl, ?_, rfl, by decide, rfl, rfl, ?_, ?_, by decide⟩
  · simp [initSpeedInsights, initSpeedInsightsSync, initSpeedInsightsResume, innerTry,
      State.emit]
  · simp [initSpeedInsights, initSpeedInsightsSync, initSpeedInsightsResume, innerTry,
      State.emit, isSpeedInsightsInitialized]
  · simp [initSpeedInsights, initSpeedInsightsSync, initSpeedInsightsResume, innerTry,
      State.emit, diagnostics_append, diagnostics, successLine]
  · simp [successLine, notAvailableLine]
  · simp [successLine, warningLine]

/-- C10: for every state and environment the reader gives true after one call
exactly when the flag was true before, or the context is the server, the import
resolved and `injectSpeedInsights` returned; and on each other path
(browser, import rejected, export not callable, entry point threw) the flag
after the call is the flag before it. -/
theorem transition_condition (s : State) :
    (∀ env : Env,
      isSpeedInsightsInitialized (initSpeedInsights env s).1 = true ↔
        s.speedInsightsInitialized = true ∨
          (env.windowDefined = false ∧
            ∃ value, env.provider = .resolves (some (.returns value)))) ∧
    (∀ o, isSpeedInsightsInitialized (initSpeedInsights ⟨true, o⟩ s).1
        = s.speedInsightsInitialized) ∧
    (∀ reason, isSpeedInsightsInitialized (initSpeedInsights ⟨false, .rejects reason⟩ s).1
        = s.speedInsightsInitialized) ∧
    isSpeedInsightsInitialized (initSpeedInsights ⟨false, .resolves none⟩ s).1
        = s.speedInsightsInitialized ∧
    (∀ thrown,
      isSpeedInsightsInitialized
          (initSpeedInsights ⟨false, .resolves (some (.throws thrown))⟩ s).1
        = s.speedInsightsInitialized) := by
  refine ⟨?_, ?_, ?_, ?_, ?_⟩
  · rintro ⟨w, o⟩
    rw [isSpeedInsightsInitialized, initSpeedInsights_flag]
    rcases o with r | (_ | (v | e)) <;> cases w <;> simp [entryReturned]
  all_goals
    intros
    simp [isSpeedInsightsInitialized, initSpeedInsights_flag, entryReturned]

/-- C1 (the code rejects here): with the flag false, on the server, when the import
resolves and `injectSpeedInsights` throws an object whose `message`
getter throws `null`, the inner handler raises `null` while building its
log line, the outer handler raises a `TypeError` while building its own,
and the promise returned by the call is rejected with that `TypeError`. -/
theorem rejects_when_message_getter_raises_nullish :
    initSpeedInsights ⟨false, .resolves (some (.throws (.messageRaises .nullish)))⟩ freshState
      = (⟨false, [.probe, .importAttempt, .invoke (.throws (.messageRaises .nullish))]⟩,
          .rejected (.value (some typeErrorNullishMessage))) := by
  decide

/-- C4 (the code logs a warning here): with the flag false, on the server,
when the import rejects with the reason `null`, the call resolves, the flag
stays false and the entry point is not invoked, but the one diagnostic of the
call is the `console.warn` line of the outer handler, not the `console.log`
line of the inner one. -/
theorem nullish_rejection_is_logged_as_warning :
    initSpeedInsights ⟨false, .rejects .nullish⟩ freshState
      = (⟨false, [.probe, .importAttempt,
            .diagnostic (warningLine (some typeErrorNullishMessage))]⟩, .resolved) ∧
    diagnostics (initSpeedInsights ⟨false, .rejects .nullish⟩ freshState).1.trace
      = [⟨.warn, "[Speed Insights] Warning during initialization:",
          some (some typeErrorNullishMessage)⟩] := by
  decide

/-- C6 fails as stated: when `injectSpeedInsights` throws `null` the one
diagnostic is the `console.warn` line, and when `injectSpeedInsights` returns
an error value the flag becomes true and the success line is logged. -/
theorem failure_classification_counterexample :
    diagnostics
        (initSpeedInsights ⟨false, .resolves (some (.throws .nullish))⟩ freshState).1.trace
      = [warningLine (some typeErrorNullishMessage)] ∧
    (warningLine (some typeErrorNullishMessage)).level = .warn ∧
    initSpeedInsights ⟨false, .resolves (some (.returns (.errorValue "failed")))⟩ freshState
      = (⟨true, [.probe, .importAttempt, .invoke (.returns (.errorValue "failed")),
            .diagnostic successLine]⟩, .resolved) := by
  decide

/-- C6 as amended: with the flag false, on the server, when the import rejects
with a reason whose `message` can be read, or the export is not callable, or
`injectSpeedInsights` throws a value whose `message` can be read, the call
resolves, the flag stays false, and the one diagnostic is the `console.log`
"not available" line carrying that message. A value returned by
`injectSpeedInsights` is never a failure: the flag is set and the success
line is logged, also when the value is an error value. -/
theorem failure_classification (t : List Event) (message : Option String) (text : String) :
    initSpeedInsights ⟨false, .rejects (.value message)⟩ ⟨false, t⟩
      = (⟨false, t ++ [.probe, .importAttempt, .diagnostic (notAvailableLine message)]⟩,
          .resolved) ∧
    initSpeedInsights ⟨false, .resolves none⟩ ⟨false, t⟩
      = (⟨false, t ++ [.probe, .importAttempt,
            .diagnostic (notAvailableLine (some typeErrorNotCallableMessage))]⟩, .resolved) ∧
    initSpeedInsights ⟨false, .resolves (some (.throws (.value message)))⟩ ⟨false, t⟩
      = (⟨false, t ++ [.probe, .importAttempt, .invoke (.throws (.value message)),
            .diagnostic (notAvailableLine message)]⟩, .resolved) ∧
    (notAvailableLine message).level = .log ∧
    initSpeedInsights ⟨false, .resolves (some (.returns (.errorValue text)))⟩ ⟨false, t⟩
      = (⟨true, t ++ [.probe, .importAttempt, .invoke (.returns (.errorValue text)),
            .diagnostic successLine]⟩, .resolved) := by
  refine ⟨?_, ?_, ?_, rfl, ?_⟩ <;>
    simp [initSpeedInsights, initSpeedInsightsSync, initSpeedInsightsResume, innerTry,
      innerCatch, readMessage, State.emit]

/-! ## Sequences -/

/-- C8 fails as stated: with the provider present on the server, when
`injectSpeedInsights` throws in the first call, the second call invokes it
again, so two calls in a row invoke it twice. -/
theorem scenario_d_counterexample :
    invocations
        (runCalls
          [⟨false, .resolves (some (.throws (.value (some "telemetry failed"))))⟩,
           ⟨false, .resolves (some (.returns .undefined))⟩]
          freshState).trace = 2 := by
  decide

/-- C8 as amended: from the fresh state, on the server, with the provider
present and `injectSpeedInsights` returning in the first call, two calls in a
row invoke `injectSpeedInsights` exactly once, whatever the environment of
the second call. -/
theorem scenario_d (value : JsReturn) (second : Env) :
    invocations
        (runCalls [⟨false, .resolves (some (.returns value))⟩, second] freshState).trace
      = 1 := by
  simp [runCalls, freshState, initSpeedInsights, initSpeedInsightsSync,
    initSpeedInsightsResume, innerTry, State.emit, invocations]

/-- C2 fails as stated: on the server with the provider present, when
`injectSpeedInsights` throws in every call, three calls in a row invoke it
three times. -/
theorem idempotence_counterexample :
    invocations
        (runCalls
          (List.replicate 3 ⟨false, .resolves (some (.throws (.value (some "boom"))))⟩)
          freshState).trace = 3 := by
  decide

/-- C2 as amended: for every list of environments, calls made one after the
other from the fresh state contain at most one invocation of
`injectSpeedInsights` that returns; the reader gives true exactly when that
invocation has happened; and from a state whose flag is true any further
calls leave the flag and the record unchanged, so there is no later
invocation and the reader keeps giving true. -/
theorem sequential_idempotence (envs later : List Env) (t : List Event) :
    successfulInvocations (runCalls envs freshState).trace ≤ 1 ∧
    (isSpeedInsightsInitialized (runCalls envs freshState) = true ↔
      successfulInvocations (runCalls envs freshState).trace = 1) ∧
    runCalls later ⟨true, t⟩ = ⟨true, t⟩ ∧
    isSpeedInsightsInitialized (runCalls later ⟨true, t⟩) = true ∧
    invocations (runCalls later ⟨true, t⟩).trace = invocations t := by
  have h := runCalls_successful envs freshState rfl
  refine ⟨?_, ?_, runCalls_of_flag later t, ?_, ?_⟩
  · rw [h]; split <;> simp
  · rw [h, isSpeedInsightsInitialized]
    cases (runCalls envs freshState).speedInsightsInitialized <;> simp
  · rw [runCalls_of_flag]; rfl
  · rw [runCalls_of_flag]

/-- C7: along every finite sequence of awaited calls and reads from the fresh
state, under any environments, the flag never goes from true to false and
goes from false to true at most once; the same holds along every sequence of
atomic scheduler steps when calls are left pending and interleave; and from a
state whose flag is true every operation leaves it true. -/
theorem flag_is_monotone (ops : List Op) (steps : List Step) (t : List Event) (op : Op) :
    fallingEdges (flagTrace isSpeedInsightsInitialized applyOp freshState ops) = 0 ∧
    risingEdges (flagTrace isSpeedInsightsInitialized applyOp freshState ops) ≤ 1 ∧
    fallingEdges
      (flagTrace (fun c => isSpeedInsightsInitialized c.state) applyStep
        ⟨freshState, 0⟩ steps) = 0 ∧
    risingEdges
      (flagTrace (fun c => isSpeedInsightsInitialized c.state) applyStep
        ⟨freshState, 0⟩ steps) ≤ 1 ∧
    isSpeedInsightsInitialized (applyOp ⟨true, t⟩ op) = true := by
  have h1 := flagTrace_edges isSpeedInsightsInitialized applyOp applyOp_flag ops freshState
  have h2 := flagTrace_edges (fun c => isSpeedInsightsInitialized c.state) applyStep
    applyStep_flag steps ⟨freshState, 0⟩
  exact ⟨h1.1, h1.2.1, h2.1, h2.2.1, applyOp_flag ⟨true, t⟩ op rfl⟩

end SpeedInsights
